import Mathlib

/-! Verification of the devp2p-rs ETH wire-message codec (`src/eth/proto.rs`)
and the DevP2P peer-session orchestrator (`src/raw.rs`), shallowly embedded
in Lean.  RLP records are modelled as trees of byte strings and lists, the
view the `rlp` crate's `UntrustedRlp` presents over decoded input; the
orchestrator is modelled as a state machine over scripted discovery and
transport collaborators. -/

namespace DevP2P

/-- An RLP item: a byte string or a list of items.  Bytes are naturals
(below 256 in well-formed data).  This is the structural view used by the
`rlp` crate accessors (`val_at`, `at`, `item_count`, `as_list`, `size`). -/
inductive RLPItem where
  | str : List Nat → RLPItem
  | list : List RLPItem → RLPItem

/-- The `rlp` crate decoder-error kinds reachable from the embedded code. -/
inductive DecoderError where
  | RlpExpectedToBeList
  | RlpExpectedToBeData
  | RlpIsTooShort
  | RlpIsTooBig
  | RlpInvalidIndirection
deriving DecidableEq

/-- Fuel-driven big-endian digit expansion; the fuel only bounds the
recursion depth (any fuel at least the value itself is enough). -/
def natToBeAux : Nat → Nat → List Nat
  | 0, _ => []
  | _+1, 0 => []
  | f+1, n+1 => natToBeAux f ((n+1) / 256) ++ [(n+1) % 256]

/-- Minimal big-endian byte encoding of a natural number; the payload the
`rlp` crate emits for unsigned-integer values (zero encodes to no bytes). -/
def natToBe (n : Nat) : List Nat :=
  natToBeAux n n

/-- Big-endian value of a byte string (the `rlp` crate's integer read). -/
def beToNat (bs : List Nat) : Nat :=
  bs.foldl (fun a b => a * 256 + b) 0

mutual
/-- Total encoded byte length of an RLP item (header plus payload), as the
byte-level RLP encoding would produce it. -/
def encodedLen : RLPItem → Nat
  | .str bs =>
      if bs.length = 1 ∧ bs.headD 0 < 128 then 1
      else if bs.length ≤ 55 then 1 + bs.length
      else 1 + (natToBe bs.length).length + bs.length
  | .list items =>
      let p := payloadLen items
      if p ≤ 55 then 1 + p else 1 + (natToBe p).length + p

/-- Total encoded byte length of a sequence of RLP items. -/
def payloadLen : List RLPItem → Nat
  | [] => 0
  | x :: xs => encodedLen x + payloadLen xs
end

/-- `UntrustedRlp::size`: the byte length of the item's payload — the length
of the byte string for a string item, the total encoded length of the
children for a list item. -/
def rlpSize : RLPItem → Nat
  | .str bs => bs.length
  | .list items => payloadLen items

/-- `UntrustedRlp::item_count`: number of children of a list record. -/
def itemCount : RLPItem → Except DecoderError Nat
  | .str _ => .error .RlpExpectedToBeList
  | .list items => .ok items.length

/-- `UntrustedRlp::at`: the child at an index of a list record. -/
def rlpAt : RLPItem → Nat → Except DecoderError RLPItem
  | .str _, _ => .error .RlpExpectedToBeList
  | .list items, i =>
      match items[i]? with
      | some x => .ok x
      | none => .error .RlpIsTooShort

/-- Unsigned-integer decoding of the `rlp` crate, with a width limit in
bytes: data only, no leading zero byte, payload at most `maxBytes` wide. -/
def decodeUint (maxBytes : Nat) : RLPItem → Except DecoderError Nat
  | .list _ => .error .RlpExpectedToBeData
  | .str bs =>
      match bs with
      | [] => .ok 0
      | b :: _ =>
          if b = 0 then .error .RlpInvalidIndirection
          else if bs.length ≤ maxBytes then .ok (beToNat bs)
          else .error .RlpIsTooBig

/-- 256-bit hash decoding of the `rlp` crate: data of exactly 32 bytes. -/
def decodeH256 : RLPItem → Except DecoderError (List Nat)
  | .list _ => .error .RlpExpectedToBeData
  | .str bs =>
      if bs.length < 32 then .error .RlpIsTooShort
      else if 32 < bs.length then .error .RlpIsTooBig
      else .ok bs

/-- Opaque transaction payload of the external block-model crate: this core
moves the record around without inspecting it (spec §3 treats transaction
records as opaque), so it is modelled as its raw RLP item. -/
structure Transaction where
  item : RLPItem

/-- Opaque block-header payload of the external block-model crate. -/
structure Header where
  item : RLPItem

/-- Opaque block payload of the external block-model crate. -/
structure Block where
  item : RLPItem

/-- Decoding an opaque external payload: wraps the raw item. -/
def decodeTransaction (r : RLPItem) : Except DecoderError Transaction :=
  .ok ⟨r⟩

/-- Decoding an opaque external header payload. -/
def decodeHeader (r : RLPItem) : Except DecoderError Header :=
  .ok ⟨r⟩

/-- Decoding an opaque external block payload. -/
def decodeBlock (r : RLPItem) : Except DecoderError Block :=
  .ok ⟨r⟩

/-- Sequential decoding of a list of items, first error wins (the `rlp`
crate's `as_list` iteration). -/
def decodeEach (dec : RLPItem → Except DecoderError α) :
    List RLPItem → Except DecoderError (List α)
  | [] => .ok []
  | x :: xs => do
      let a ← dec x
      let as ← decodeEach dec xs
      .ok (a :: as)

/-- `UntrustedRlp::as_list`: the record must be a list; decode each child. -/
def asList (dec : RLPItem → Except DecoderError α) :
    RLPItem → Except DecoderError (List α)
  | .str _ => .error .RlpExpectedToBeList
  | .list items => decodeEach dec items

/-- `UntrustedRlp::val_at` at an unsigned-integer type of the given width. -/
def valAtUint (maxBytes : Nat) (r : RLPItem) (i : Nat) :
    Except DecoderError Nat := do
  decodeUint maxBytes (← rlpAt r i)

/-- `UntrustedRlp::val_at::<H256>`. -/
def valAtH256 (r : RLPItem) (i : Nat) : Except DecoderError (List Nat) := do
  decodeH256 (← rlpAt r i)

/-- `UntrustedRlp::list_at`: the child at an index, decoded as a list. -/
def listAt (dec : RLPItem → Except DecoderError α) (r : RLPItem) (i : Nat) :
    Except DecoderError (List α) := do
  asList dec (← rlpAt r i)

/-- The Rust `for i in 0..n` decode loop: runs the body at indices
`0, 1, …, n-1` in order, pushing results, first error wins. -/
def decodeRange (f : Nat → Except DecoderError α) :
    Nat → Except DecoderError (List α)
  | 0 => .ok []
  | n+1 => do
      let xs ← decodeRange f n
      let x ← f n
      .ok (xs ++ [x])

/-- The `ETHMessage` enum of `src/eth/proto.rs` (ETH protocol 62/63).
`usize` fields are naturals below `2^64`, `U256` fields naturals below
`2^256`, `H256` fields byte strings of length 32; those Rust-type bounds
appear as hypotheses where theorems need them. -/
inductive ETHMessage where
  | Status (protocol_version network_id : Nat) (total_difficulty : Nat)
      (best_hash genesis_hash : List Nat)
  | NewBlockHashes (hashes : List (List Nat × Nat))
  | Transactions (transactions : List Transaction)
  | GetBlockHeadersByNumber (number : Nat) (max_headers skip : Nat)
      (reverse : Bool)
  | GetBlockHeadersByHash (hash : List Nat) (max_headers skip : Nat)
      (reverse : Bool)
  | BlockHeaders (headers : List Header)
  | GetBlockBodies (hashes : List (List Nat))
  | BlockBodies (bodies : List (List Transaction × List Header))
  | NewBlock (block : Block) (total_difficulty : Nat)
  | Unknown

/-- `ETHMessage::id`: the wire message id of each variant. -/
def ETHMessage.id : ETHMessage → Nat
  | .Status .. => 0
  | .NewBlockHashes _ => 1
  | .Transactions _ => 2
  | .GetBlockHeadersByNumber .. => 3
  | .GetBlockHeadersByHash .. => 3
  | .BlockHeaders _ => 4
  | .GetBlockBodies _ => 5
  | .BlockBodies _ => 6
  | .NewBlock .. => 7
  | .Unknown => 127

/-- `ETHMessage::decode` from `src/eth/proto.rs`: decode an RLP record into
an ETH message using the given message id (the Rust integer `match` arms
rendered as an equality chain). -/
def ETHMessage.decode (rlp : RLPItem) (id : Nat) :
    Except DecoderError ETHMessage :=
  if id = 0 then do
    let pv ← valAtUint 8 rlp 0
    let nid ← valAtUint 8 rlp 1
    let td ← valAtUint 32 rlp 2
    let bh ← valAtH256 rlp 3
    let gh ← valAtH256 rlp 4
    Except.ok (.Status pv nid td bh gh)
  else if id = 1 then do
    let n ← itemCount rlp
    let r ← decodeRange (fun i => do
      let d ← rlpAt rlp i
      let h ← valAtH256 d 0
      let num ← valAtUint 32 d 1
      Except.ok (h, num)) n
    Except.ok (.NewBlockHashes r)
  else if id = 2 then do
    let txs ← asList decodeTransaction rlp
    Except.ok (.Transactions txs)
  else if id = 3 then do
    let reverse ← valAtUint 4 rlp 3
    let i0 ← rlpAt rlp 0
    if rlpSize i0 = 32 then do
      let h ← valAtH256 rlp 0
      let mh ← valAtUint 8 rlp 1
      let sk ← valAtUint 8 rlp 2
      Except.ok (.GetBlockHeadersByHash h mh sk
        (if reverse = 0 then false else true))
    else do
      let num ← valAtUint 32 rlp 0
      let mh ← valAtUint 8 rlp 1
      let sk ← valAtUint 8 rlp 2
      Except.ok (.GetBlockHeadersByNumber num mh sk
        (if reverse = 0 then false else true))
  else if id = 4 then do
    let hs ← asList decodeHeader rlp
    Except.ok (.BlockHeaders hs)
  else if id = 5 then do
    let hs ← asList decodeH256 rlp
    Except.ok (.GetBlockBodies hs)
  else if id = 6 then do
    let n ← itemCount rlp
    let r ← decodeRange (fun i => do
      let d ← rlpAt rlp i
      let ts ← listAt decodeTransaction d 0
      let hs ← listAt decodeHeader d 1
      Except.ok (ts, hs)) n
    Except.ok (.BlockBodies r)
  else if id = 7 then do
    let b ← decodeBlock (← rlpAt rlp 0)
    let td ← valAtUint 32 rlp 1
    Except.ok (.NewBlock b td)
  else
    Except.ok .Unknown

/-- The RLP encoding of an unsigned integer value: its minimal big-endian
byte string. -/
def encodeUint (n : Nat) : RLPItem :=
  .str (natToBe n)

/-- `Encodable::rlp_append` for `ETHMessage`: the sequence of top-level
items the implementation appends to the output stream.  Every arm appends
exactly one item — an enclosing list begun with `begin_list` — except
`BlockBodies`, whose arm never begins an enclosing list and instead appends
one two-item list per body directly at the top level. -/
def ETHMessage.rlp_append : ETHMessage → List RLPItem
  | .Status pv nid td bh gh =>
      [.list [encodeUint pv, encodeUint nid, encodeUint td, .str bh, .str gh]]
  | .NewBlockHashes hashes =>
      [.list (hashes.map (fun p => .list [.str p.1, encodeUint p.2]))]
  | .Transactions transactions =>
      [.list (transactions.map Transaction.item)]
  | .GetBlockHeadersByNumber number mh sk rv =>
      [.list [encodeUint number, encodeUint mh, encodeUint sk,
        encodeUint (if rv then 1 else 0)]]
  | .GetBlockHeadersByHash hash mh sk rv =>
      [.list [.str hash, encodeUint mh, encodeUint sk,
        encodeUint (if rv then 1 else 0)]]
  | .BlockHeaders headers =>
      [.list (headers.map Header.item)]
  | .GetBlockBodies hashes =>
      [.list (hashes.map (fun h => .str h))]
  | .BlockBodies bodies =>
      bodies.map (fun b =>
        .list [.list (b.1.map Transaction.item), .list (b.2.map Header.item)])
  | .NewBlock b td =>
      [.list [b.item, encodeUint td]]
  | .Unknown =>
      [.list []]

/-- The record an `UntrustedRlp` view of the encoder's output byte stream
presents: the first top-level item appended; an empty stream (zero items
appended) makes every accessor fail with `RlpIsTooShort`, which we surface
at the view itself. -/
def encodeView (m : ETHMessage) : Except DecoderError RLPItem :=
  match m.rlp_append with
  | [] => .error .RlpIsTooShort
  | x :: _ => .ok x

/-- `decode(encode(m), id(m))`: encode a message, view the resulting bytes
as an untrusted record, and decode it back with the message's own id. -/
def roundTrip (m : ETHMessage) : Except DecoderError ETHMessage := do
  ETHMessage.decode (← encodeView m) m.id

/-- Constructibility of a message in the source's Rust types: `usize`
fields fit 64 bits, 256-bit integer fields fit 256 bits, hashes are
exactly 32 bytes wide. -/
def wfMsg : ETHMessage → Prop
  | .Status pv nid td bh gh =>
      pv < 2 ^ 64 ∧ nid < 2 ^ 64 ∧ td < 2 ^ 256 ∧
      bh.length = 32 ∧ gh.length = 32
  | .NewBlockHashes hashes => ∀ p ∈ hashes, p.1.length = 32 ∧ p.2 < 2 ^ 256
  | .Transactions _ => True
  | .GetBlockHeadersByNumber n mh sk _ =>
      n < 2 ^ 256 ∧ mh < 2 ^ 64 ∧ sk < 2 ^ 64
  | .GetBlockHeadersByHash h mh sk _ =>
      h.length = 32 ∧ mh < 2 ^ 64 ∧ sk < 2 ^ 64
  | .BlockHeaders _ => True
  | .GetBlockBodies hashes => ∀ h ∈ hashes, h.length = 32
  | .BlockBodies _ => True
  | .NewBlock _ td => td < 2 ^ 256
  | .Unknown => True

/-- The reverse flag carried by the two `GetBlockHeaders` variants, when
present. -/
def ETHMessage.reverseFlag : ETHMessage → Option Bool
  | .GetBlockHeadersByNumber _ _ _ rv => some rv
  | .GetBlockHeadersByHash _ _ _ rv => some rv
  | _ => none

/-- Futures 0.1 poll result: ready with a value, or not ready yet. -/
inductive Async (α : Type) where
  | ready (a : α)
  | notReady
deriving DecidableEq

/-- Opaque I/O error propagated from the collaborators. -/
abbrev IoError : Type := Nat

/-- A discovered peer record produced by the discovery collaborator. -/
structure DPTNode where
  address : Nat
  tcp_port : Nat
  id : Nat
deriving DecidableEq

/-- Control messages the discovery collaborator accepts; a ping carries the
fresh per-link timeout deadline created for it. -/
inductive DPTMessage where
  | RequestNewPeer
  | Ping (deadline : Nat)
deriving DecidableEq

/-- Observable collaborator interactions of one orchestrator run, in
order. -/
inductive Event where
  | dptPolled
  | rlpxAddPeer (address port id : Nat)
  | rlpxPolled
  | optTimeoutPolled
  | pingTimeoutPolled
  | dptSent (m : DPTMessage)
  | dptFlushPolled
  | rlpxFlushPolled
deriving DecidableEq

/-- The `DevP2PStream` state of `src/raw.rs`, with the external discovery
and transport collaborators modelled by response scripts (one scripted
response per call; an exhausted script answers "not ready" to polls and
"ready" to flushes) and logs of the calls the orchestrator makes. -/
structure DevSt where
  now : Nat
  optDeadline : Nat
  pingDeadline : Nat
  optInterval : Nat
  pingInterval : Nat
  pingTimeoutInterval : Nat
  optimalPeersLen : Nat
  rlpxActive : List Nat
  dptPollScript : List (Except IoError (Async (Option DPTNode)))
  rlpxPollScript : List (Except IoError (Async (Option Nat)))
  dptFlushScript : List (Except IoError (Async Unit))
  rlpxFlushScript : List (Except IoError (Async Unit))
  rlpxPeers : List (Nat × Nat × Nat)
  dptSent : List DPTMessage
  trace : List Event

/-- Record one observable interaction. -/
def pushEvent (st : DevSt) (e : Event) : DevSt :=
  { st with trace := st.trace ++ [e] }

/-- `self.dpt.poll()`: consume the next scripted discovery response. -/
def dptPoll (st : DevSt) : Except IoError (DevSt × Async (Option DPTNode)) :=
  match st.dptPollScript with
  | [] => .ok (pushEvent st .dptPolled, .notReady)
  | r :: rest =>
      let st := pushEvent { st with dptPollScript := rest } .dptPolled
      match r with
      | .error e => .error e
      | .ok a => .ok (st, a)

/-- `self.rlpx.add_peer(addr, id)`: register a dial candidate. -/
def rlpxAddPeer (st : DevSt) (n : DPTNode) : DevSt :=
  pushEvent
    { st with rlpxPeers := st.rlpxPeers ++ [(n.address, n.tcp_port, n.id)] }
    (.rlpxAddPeer n.address n.tcp_port n.id)

/-- `self.rlpx.poll()`: consume the next scripted transport event. -/
def rlpxPoll (st : DevSt) : Except IoError (DevSt × Async (Option Nat)) :=
  match st.rlpxPollScript with
  | [] => .ok (pushEvent st .rlpxPolled, .notReady)
  | r :: rest =>
      let st := pushEvent { st with rlpxPollScript := rest } .rlpxPolled
      match r with
      | .error e => .error e
      | .ok a => .ok (st, a)

/-- `self.dpt.start_send(msg)`: hand a control message to discovery. -/
def dptStartSend (st : DevSt) (m : DPTMessage) : DevSt :=
  pushEvent { st with dptSent := st.dptSent ++ [m] } (.dptSent m)

/-- `self.dpt.poll_complete()`: consume the next scripted flush response. -/
def dptPollComplete (st : DevSt) : Except IoError (DevSt × Async Unit) :=
  match st.dptFlushScript with
  | [] => .ok (pushEvent st .dptFlushPolled, .ready ())
  | r :: rest =>
      let st := pushEvent { st with dptFlushScript := rest } .dptFlushPolled
      match r with
      | .error e => .error e
      | .ok a => .ok (st, a)

/-- `self.rlpx.poll_complete()`. -/
def rlpxPollComplete (st : DevSt) : Except IoError (DevSt × Async Unit) :=
  match st.rlpxFlushScript with
  | [] => .ok (pushEvent st .rlpxFlushPolled, .ready ())
  | r :: rest =>
      let st := pushEvent { st with rlpxFlushScript := rest } .rlpxFlushPolled
      match r with
      | .error e => .error e
      | .ok a => .ok (st, a)

/-- A `tokio` timeout's poll: ready exactly when the deadline has been
reached. -/
def timeoutElapsed (now deadline : Nat) : Async Unit :=
  if deadline ≤ now then .ready () else .notReady

/-- Poll the peer-replenishment timeout (records the check). -/
def pollOptTimeout (st : DevSt) : DevSt × Async Unit :=
  (pushEvent st .optTimeoutPolled, timeoutElapsed st.now st.optDeadline)

/-- Poll the liveness-ping timeout (records the check). -/
def pollPingTimeout (st : DevSt) : DevSt × Async Unit :=
  (pushEvent st .pingTimeoutPolled, timeoutElapsed st.now st.pingDeadline)

/-- The loop body of `poll_dpt_receive_peers`: repeatedly pull discovered
nodes and register each with the transport, until discovery reports
nothing ready (or errors).  Recursion is on the remaining script. -/
def drainLoop : List (Except IoError (Async (Option DPTNode))) → DevSt →
    Except IoError DevSt
  | [], st => .ok (pushEvent st .dptPolled)
  | r :: rest, st =>
      let st' := pushEvent { st with dptPollScript := rest } .dptPolled
      match r with
      | .error e => .error e
      | .ok (.ready (some n)) => drainLoop rest (rlpxAddPeer st' n)
      | .ok (.ready none) => .ok st'
      | .ok .notReady => .ok st'

/-- `DevP2PStream::poll_dpt_receive_peers`. -/
def poll_dpt_receive_peers (st : DevSt) : Except IoError DevSt :=
  drainLoop st.dptPollScript st

/-- The `loop` of `poll_dpt_request_new_peers`, driven by the result of the
latest timeout poll; `none` means the fuel bound was crossed (the source
loop cannot terminate when the replenishment interval is zero). -/
def requestNewPeersLoop : Nat → DevSt → Async Unit →
    Option (Except IoError DevSt)
  | _, st, .notReady => some (.ok st)
  | 0, _, .ready _ => none
  | fuel + 1, st, .ready _ =>
      let step : Except IoError DevSt :=
        if st.rlpxActive.length < st.optimalPeersLen then
          match dptPollComplete (dptStartSend st .RequestNewPeer) with
          | .error e => .error e
          | .ok (st, _) => .ok st
        else .ok st
      match step with
      | .error e => some (.error e)
      | .ok st =>
          let st := { st with optDeadline := st.now + st.optInterval }
          let p := pollOptTimeout st
          requestNewPeersLoop fuel p.1 p.2

/-- `DevP2PStream::poll_dpt_request_new_peers`. -/
def poll_dpt_request_new_peers (fuel : Nat) (st : DevSt) :
    Option (Except IoError DevSt) :=
  let p := pollOptTimeout st
  requestNewPeersLoop fuel p.1 p.2

/-- The `loop` of `poll_dpt_ping`: on each elapsed checkpoint send a ping
carrying a fresh timeout deadline, flush, and rearm the ping deadline. -/
def pingLoop : Nat → DevSt → Async Unit → Option (Except IoError DevSt)
  | _, st, .notReady => some (.ok st)
  | 0, _, .ready _ => none
  | fuel + 1, st, .ready _ =>
      let st := dptStartSend st (.Ping (st.now + st.pingTimeoutInterval))
      match dptPollComplete st with
      | .error e => some (.error e)
      | .ok (st, _) =>
          let st := { st with pingDeadline := st.now + st.pingInterval }
          let p := pollPingTimeout st
          pingLoop fuel p.1 p.2

/-- `DevP2PStream::poll_dpt_ping`. -/
def poll_dpt_ping (fuel : Nat) (st : DevSt) :
    Option (Except IoError DevSt) :=
  let p := pollPingTimeout st
  pingLoop fuel p.1 p.2

/-- `<DevP2PStream as Stream>::poll`: the four sub-steps in the source's
order — drain discovery into the transport, poll the transport for this
turn's result, service the replenishment timer, service the ping timer. -/
def devPoll (fuel : Nat) (st : DevSt) :
    Option (Except IoError (DevSt × Async (Option Nat))) :=
  match poll_dpt_receive_peers st with
  | .error e => some (.error e)
  | .ok st =>
    match rlpxPoll st with
    | .error e => some (.error e)
    | .ok (st, result) =>
      match poll_dpt_request_new_peers fuel st with
      | none => none
      | some (.error e) => some (.error e)
      | some (.ok st) =>
        match poll_dpt_ping fuel st with
        | none => none
        | some (.error e) => some (.error e)
        | some (.ok st) => some (.ok (st, result))

/-- `<DevP2PStream as Sink>::poll_complete`: flush discovery, then (only
once that is complete) flush the transport; ready only when both were. -/
def devPollComplete (st : DevSt) : Except IoError (DevSt × Async Unit) :=
  match dptPollComplete st with
  | .error e => .error e
  | .ok (st, .notReady) => .ok (st, .notReady)
  | .ok (st, .ready _) =>
      match rlpxPollComplete st with
      | .error e => .error e
      | .ok (st, .notReady) => .ok (st, .notReady)
      | .ok (st, .ready _) => .ok (st, .ready ())

/-- The nodes an orchestrator turn will drain this turn: the longest
prefix of ready discoveries at the head of the script. -/
def readyNodes : List (Except IoError (Async (Option DPTNode))) →
    List DPTNode
  | .ok (.ready (some n)) :: rest => n :: readyNodes rest
  | _ => []

/-- Number of `RequestNewPeer` control messages in a send log. -/
def countRequests (l : List DPTMessage) : Nat :=
  l.countP (fun m => match m with | .RequestNewPeer => true | _ => false)

/-- Trace events a drain sub-step may produce. -/
def isDrainEvent : Event → Prop
  | .dptPolled => True
  | .rlpxAddPeer .. => True
  | _ => False

/-- Trace events the replenishment sub-step may produce. -/
def isReplenishEvent : Event → Prop
  | .optTimeoutPolled => True
  | .dptSent _ => True
  | .dptFlushPolled => True
  | _ => False

/-- Trace events the liveness-ping sub-step may produce. -/
def isPingEvent : Event → Prop
  | .pingTimeoutPolled => True
  | .dptSent _ => True
  | .dptFlushPolled => True
  | _ => False

/-- The scripted response a flush poll will see next (an exhausted script
reports an already-flushed buffer). -/
def flushHead (s : List (Except IoError (Async Unit))) :
    Except IoError (Async Unit) :=
  s.headD (.ok (.ready ()))

/-- Mock-run invariant for the replenishment-liveness scenario: all
collaborator scripts are exhausted (polls not ready, flushes complete),
the active-peer count is below target, and both timer periods are
positive. -/
def scenarioInv (st : DevSt) : Prop :=
  st.dptPollScript = [] ∧ st.rlpxPollScript = [] ∧
  st.dptFlushScript = [] ∧ st.rlpxFlushScript = [] ∧
  st.rlpxActive.length < st.optimalPeersLen ∧
  0 < st.optInterval ∧ 0 < st.pingInterval

/-- Poll the orchestrator once at each replenishment deadline, `n` times:
the turn at which each successive deadline elapses. -/
def iterateScenario : Nat → DevSt → Option DevSt
  | 0, st => some st
  | n + 1, st =>
      match devPoll 1 { st with now := st.optDeadline } with
      | some (.ok (st', _)) => iterateScenario n st'
      | _ => none

/-- A small concrete orchestrator state used to exercise the poll-turn
theorems: one discovered node queued, timers in the future. -/
def sampleSt : DevSt :=
  { now := 0, optDeadline := 5, pingDeadline := 1000, optInterval := 7,
    pingInterval := 9, pingTimeoutInterval := 4, optimalPeersLen := 5,
    rlpxActive := [], dptPollScript := [.ok (.ready (some ⟨1, 2, 3⟩))],
    rlpxPollScript := [], dptFlushScript := [], rlpxFlushScript := [],
    rlpxPeers := [], dptSent := [], trace := [] }

/-- A concrete state satisfying the replenishment-scenario invariant. -/
def sampleInvSt : DevSt :=
  { now := 0, optDeadline := 5, pingDeadline := 1000, optInterval := 7,
    pingInterval := 9, pingTimeoutInterval := 4, optimalPeersLen := 5,
    rlpxActive := [], dptPollScript := [], rlpxPollScript := [],
    dptFlushScript := [], rlpxFlushScript := [], rlpxPeers := [],
    dptSent := [], trace := [] }

/-- A concrete state whose transport flush is not yet complete. -/
def sampleFlushSt : DevSt :=
  { now := 0, optDeadline := 5, pingDeadline := 1000, optInterval := 7,
    pingInterval := 9, pingTimeoutInterval := 4, optimalPeersLen := 5,
    rlpxActive := [], dptPollScript := [], rlpxPollScript := [],
    dptFlushScript := [], rlpxFlushScript := [.ok .notReady],
    rlpxPeers := [], dptSent := [], trace := [] }

theorem natToBeAux_zero (f : Nat) : natToBeAux f 0 = [] := by
  cases f <;> rfl

theorem natToBeAux_succ (f n : Nat) :
    natToBeAux (f + 1) (n + 1) =
      natToBeAux f ((n + 1) / 256) ++ [(n + 1) % 256] := rfl

theorem beToNat_append_single (xs : List Nat) (b : Nat) :
    beToNat (xs ++ [b]) = beToNat xs * 256 + b := by
  simp [beToNat, List.foldl_append]

theorem beToNat_natToBeAux :
    ∀ f n, n ≤ f → beToNat (natToBeAux f n) = n := by
  intro f
  induction f with
  | zero =>
      intro n hn
      have hn0 : n = 0 := Nat.le_zero.mp hn
      subst hn0; rfl
  | succ f ih =>
      intro n hn
      cases n with
      | zero => simp [natToBeAux_zero, beToNat]
      | succ m =>
          have hdiv : (m + 1) / 256 < m + 1 :=
            Nat.div_lt_self (Nat.succ_pos m) (by norm_num)
          have hq : (m + 1) / 256 ≤ f := by omega
          rw [natToBeAux_succ, beToNat_append_single, ih _ hq]
          omega

theorem natToBeAux_length_le :
    ∀ f n k, n ≤ f → n < 256 ^ k → (natToBeAux f n).length ≤ k := by
  intro f
  induction f with
  | zero =>
      intro n k hn _
      have hn0 : n = 0 := Nat.le_zero.mp hn
      subst hn0; simp [natToBeAux]
  | succ f ih =>
      intro n k hn hk
      cases n with
      | zero => simp [natToBeAux_zero]
      | succ m =>
          cases k with
          | zero => simp at hk
          | succ j =>
              have hdiv : (m + 1) / 256 < m + 1 :=
                Nat.div_lt_self (Nat.succ_pos m) (by norm_num)
              have hq : (m + 1) / 256 ≤ f := by omega
              have hqk : (m + 1) / 256 < 256 ^ j := by
                rw [Nat.div_lt_iff_lt_mul (by norm_num : (0:Nat) < 256)]
                calc m + 1 < 256 ^ (j + 1) := hk
                  _ = 256 ^ j * 256 := by rw [Nat.pow_succ]
              have := ih _ j hq hqk
              rw [natToBeAux_succ]
              simp only [List.length_append, List.length_cons,
                List.length_nil]
              omega

theorem natToBeAux_head_ne_zero :
    ∀ f n b l, n ≤ f → natToBeAux f n = b :: l → b ≠ 0 := by
  intro f
  induction f with
  | zero =>
      intro n b l hn h
      have hn0 : n = 0 := Nat.le_zero.mp hn
      subst hn0; simp [natToBeAux] at h
  | succ f ih =>
      intro n b l hn h
      cases n with
      | zero => simp [natToBeAux_zero] at h
      | succ m =>
          rw [natToBeAux_succ] at h
          cases hq : natToBeAux f ((m + 1) / 256) with
          | nil =>
              rw [hq] at h
              simp only [List.nil_append] at h
              obtain ⟨hb, -⟩ := List.cons.inj h
              by_cases hz : (m + 1) / 256 = 0
              · omega
              · -- impossible: a positive quotient below the fuel
                -- would give a non-empty expansion
                exfalso
                have hqf : (m + 1) / 256 ≤ f := by omega
                have := beToNat_natToBeAux f _ hqf
                rw [hq] at this
                simp [beToNat] at this
                omega
          | cons b' l' =>
              rw [hq] at h
              simp only [List.cons_append] at h
              obtain ⟨hb, -⟩ := List.cons.inj h
              have hqf : (m + 1) / 256 ≤ f := by omega
              subst hb
              exact ih _ _ _ hqf hq

theorem beToNat_natToBe (n : Nat) : beToNat (natToBe n) = n :=
  beToNat_natToBeAux n n (Nat.le_refl n)

theorem natToBe_length_le (n k : Nat) (h : n < 256 ^ k) :
    (natToBe n).length ≤ k :=
  natToBeAux_length_le n n k (Nat.le_refl n) h

/-- Decoding the minimal big-endian encoding of an in-range integer
recovers it. -/
theorem decodeUint_encodeUint (k n : Nat) (h : n < 256 ^ k) :
    decodeUint k (encodeUint n) = .ok n := by
  unfold encodeUint natToBe
  cases hbs : natToBeAux n n with
  | nil =>
      have h0 : n = 0 := by
        have := beToNat_natToBeAux n n (Nat.le_refl n)
        rw [hbs] at this
        simpa [beToNat] using this.symm
      subst h0
      rfl
  | cons b l =>
      have hb : b ≠ 0 :=
        natToBeAux_head_ne_zero n n b l (Nat.le_refl n) hbs
      have hlen : (b :: l).length ≤ k := by
        have := natToBeAux_length_le n n k (Nat.le_refl n) h
        rwa [hbs] at this
      have hval : beToNat (b :: l) = n := by
        have := beToNat_natToBeAux n n (Nat.le_refl n)
        rwa [hbs] at this
      have hlen' : l.length + 1 ≤ k := by simpa using hlen
      simp [decodeUint, hb, hlen', hval]

theorem decodeH256_str (bs : List Nat) (h : bs.length = 32) :
    decodeH256 (.str bs) = .ok bs := by
  simp [decodeH256, h]

theorem exceptBind_ok {α β : Type} {e : Except DecoderError α}
    {f : α → Except DecoderError β} {b : β} :
    (e >>= f) = Except.ok b ↔ ∃ a, e = Except.ok a ∧ f a = Except.ok b := by
  cases e <;> simp [Bind.bind, Except.bind]

/-- If the loop body yields element `i` of `ys` at every index, the Rust
decode loop reproduces the first `k` elements of `ys`. -/
theorem decodeRange_ok {γ : Type} (f : Nat → Except DecoderError γ)
    (ys : List γ) (hf : ∀ i, (h : i < ys.length) → f i = .ok (ys[i])) :
    ∀ k, k ≤ ys.length → decodeRange f k = .ok (ys.take k) := by
  intro k
  induction k with
  | zero => intro _; simp [decodeRange]
  | succ j ih =>
      intro hk
      have hj : j < ys.length := by omega
      rw [decodeRange, ih (by omega), hf j hj]
      show Except.ok (ys.take j ++ [ys[j]]) = Except.ok (ys.take (j + 1))
      rw [← List.take_concat_get ys j hj, List.concat_eq_append]

/-- Decoding an element-wise encoded list recovers it. -/
theorem decodeEach_ok {γ : Type} (dec : RLPItem → Except DecoderError γ)
    (enc : γ → RLPItem) (l : List γ) (h : ∀ x ∈ l, dec (enc x) = .ok x) :
    decodeEach dec (l.map enc) = .ok l := by
  induction l with
  | nil => rfl
  | cons x xs ih =>
      have hx : dec (enc x) = .ok x := h x (List.mem_cons_self x xs)
      have hxs := ih (fun y hy => h y (List.mem_cons_of_mem x hy))
      simp only [List.map_cons, decodeEach, hx, hxs]
      rfl

theorem roundTrip_status (pv nid td : Nat) (bh gh : List Nat)
    (h1 : pv < 2 ^ 64) (h2 : nid < 2 ^ 64) (h3 : td < 2 ^ 256)
    (h4 : bh.length = 32) (h5 : gh.length = 32) :
    roundTrip (.Status pv nid td bh gh) = .ok (.Status pv nid td bh gh) := by
  have e1 := decodeUint_encodeUint 8 pv
    (lt_of_lt_of_eq h1 (by norm_num : (2:Nat) ^ 64 = 256 ^ 8))
  have e2 := decodeUint_encodeUint 8 nid
    (lt_of_lt_of_eq h2 (by norm_num : (2:Nat) ^ 64 = 256 ^ 8))
  have e3 := decodeUint_encodeUint 32 td
    (lt_of_lt_of_eq h3 (by norm_num : (2:Nat) ^ 256 = 256 ^ 32))
  simp [roundTrip, encodeView, ETHMessage.rlp_append, ETHMessage.id,
    ETHMessage.decode, valAtUint, valAtH256, rlpAt, e1, e2, e3,
    decodeH256_str _ h4, decodeH256_str _ h5, Bind.bind, Except.bind]

theorem roundTrip_newBlockHashes (hashes : List (List Nat × Nat))
    (hwf : ∀ p ∈ hashes, p.1.length = 32 ∧ p.2 < 2 ^ 256) :
    roundTrip (.NewBlockHashes hashes) = .ok (.NewBlockHashes hashes) := by
  simp only [roundTrip, encodeView, ETHMessage.rlp_append, ETHMessage.id,
    ETHMessage.decode, Bind.bind, Except.bind, itemCount]
  norm_num
  rw [decodeRange_ok _ hashes ?hp hashes.length le_rfl]
  · simp
  case hp =>
    intro i hi
    obtain ⟨hl, hv⟩ := hwf hashes[i] (hashes.getElem_mem hi)
    have ev := decodeUint_encodeUint 32 (hashes[i]).2
      (lt_of_lt_of_eq hv (by norm_num : (2:Nat) ^ 256 = 256 ^ 32))
    simp [rlpAt, valAtH256, valAtUint, List.getElem?_map, hi,
      decodeH256_str _ hl, ev, Bind.bind, Except.bind]

theorem roundTrip_transactions (txs : List Transaction) :
    roundTrip (.Transactions txs) = .ok (.Transactions txs) := by
  have h := decodeEach_ok decodeTransaction Transaction.item txs
    (fun x _ => rfl)
  simp [roundTrip, encodeView, ETHMessage.rlp_append, ETHMessage.id,
    ETHMessage.decode, asList, h, Bind.bind, Except.bind]

theorem roundTrip_blockHeaders (hs : List Header) :
    roundTrip (.BlockHeaders hs) = .ok (.BlockHeaders hs) := by
  have h := decodeEach_ok decodeHeader Header.item hs (fun x _ => rfl)
  simp [roundTrip, encodeView, ETHMessage.rlp_append, ETHMessage.id,
    ETHMessage.decode, asList, h, Bind.bind, Except.bind]

theorem roundTrip_getBlockBodies (hs : List (List Nat)) (hwf : ∀ h ∈ hs, h.length = 32) :
    roundTrip (.GetBlockBodies hs) = .ok (.GetBlockBodies hs) := by
  have h := decodeEach_ok decodeH256 (fun h => RLPItem.str h) hs
    (fun x hx => decodeH256_str x (hwf x hx))
  simp [roundTrip, encodeView, ETHMessage.rlp_append, ETHMessage.id,
    ETHMessage.decode, asList, h, Bind.bind, Except.bind]

theorem roundTrip_newBlock (b : Block) (td : Nat) (h : td < 2 ^ 256) :
    roundTrip (.NewBlock b td) = .ok (.NewBlock b td) := by
  have ev := decodeUint_encodeUint 32 td
    (lt_of_lt_of_eq h (by norm_num : (2:Nat) ^ 256 = 256 ^ 32))
  simp [roundTrip, encodeView, ETHMessage.rlp_append, ETHMessage.id,
    ETHMessage.decode, valAtUint, rlpAt, decodeBlock, ev,
    Bind.bind, Except.bind]

theorem roundTrip_unknown : roundTrip .Unknown = .ok .Unknown := rfl

theorem roundTrip_byHash (h : List Nat) (mh sk : Nat) (rv : Bool)
    (h1 : h.length = 32) (h2 : mh < 2 ^ 64) (h3 : sk < 2 ^ 64) :
    roundTrip (.GetBlockHeadersByHash h mh sk rv) =
      .ok (.GetBlockHeadersByHash h mh sk rv) := by
  have e1 := decodeUint_encodeUint 8 mh
    (lt_of_lt_of_eq h2 (by norm_num : (2:Nat) ^ 64 = 256 ^ 8))
  have e2 := decodeUint_encodeUint 8 sk
    (lt_of_lt_of_eq h3 (by norm_num : (2:Nat) ^ 64 = 256 ^ 8))
  have erv : decodeUint 4 (encodeUint (if rv then 1 else 0)) =
      .ok (if rv then 1 else 0) := by
    apply decodeUint_encodeUint
    cases rv <;> norm_num
  simp [roundTrip, encodeView, ETHMessage.rlp_append, ETHMessage.id,
    ETHMessage.decode, valAtUint, valAtH256, rlpAt, rlpSize, e1, e2, erv,
    decodeH256_str _ h1, h1, Bind.bind, Except.bind]

theorem roundTrip_byNumber (n mh sk : Nat) (rv : Bool)
    (h1 : n < 2 ^ 256) (h2 : mh < 2 ^ 64) (h3 : sk < 2 ^ 64)
    (h4 : (natToBe n).length ≠ 32) :
    roundTrip (.GetBlockHeadersByNumber n mh sk rv) =
      .ok (.GetBlockHeadersByNumber n mh sk rv) := by
  have e0 := decodeUint_encodeUint 32 n
    (lt_of_lt_of_eq h1 (by norm_num : (2:Nat) ^ 256 = 256 ^ 32))
  have e1 := decodeUint_encodeUint 8 mh
    (lt_of_lt_of_eq h2 (by norm_num : (2:Nat) ^ 64 = 256 ^ 8))
  have e2 := decodeUint_encodeUint 8 sk
    (lt_of_lt_of_eq h3 (by norm_num : (2:Nat) ^ 64 = 256 ^ 8))
  have e0' : decodeUint 32 (.str (natToBe n)) = .ok n := e0
  have e1' : decodeUint 8 (.str (natToBe mh)) = .ok mh := e1
  have e2' : decodeUint 8 (.str (natToBe sk)) = .ok sk := e2
  have erv0 : decodeUint 4 (.str (natToBe 0)) = .ok 0 := rfl
  have erv1 : decodeUint 4 (.str (natToBe 1)) = .ok 1 := rfl
  cases rv <;>
    simp [roundTrip, encodeView, ETHMessage.rlp_append, ETHMessage.id,
      ETHMessage.decode, valAtUint, rlpAt, rlpSize, encodeUint, e0', e1', e2',
      erv0, erv1, h4, Bind.bind, Except.bind]

/-- C1 (amended).  For every constructible message variant except
`BlockBodies` (whose encoder omits the enclosing list that its decoder
expects) and except `GetBlockHeadersByNumber` whose number field's minimal
byte encoding is exactly 32 bytes wide (which the id‑3 width heuristic
decodes as the by-hash variant), decoding the encoding of `m` with `id(m)`
succeeds and returns a value equal to `m`. -/
theorem claim_C1_roundTrip_amended (m : ETHMessage) (hwf : wfMsg m)
    (hbb : ∀ bodies, m ≠ ETHMessage.BlockBodies bodies)
    (hnum : ∀ n mh sk rv, m = ETHMessage.GetBlockHeadersByNumber n mh sk rv →
      (natToBe n).length ≠ 32) :
    roundTrip m = .ok m := by
  cases m with
  | Status pv nid td bh gh =>
      obtain ⟨h1, h2, h3, h4, h5⟩ := hwf
      exact roundTrip_status pv nid td bh gh h1 h2 h3 h4 h5
  | NewBlockHashes hashes => exact roundTrip_newBlockHashes hashes hwf
  | Transactions txs => exact roundTrip_transactions txs
  | GetBlockHeadersByNumber n mh sk rv =>
      obtain ⟨h1, h2, h3⟩ := hwf
      exact roundTrip_byNumber n mh sk rv h1 h2 h3 (hnum n mh sk rv rfl)
  | GetBlockHeadersByHash h mh sk rv =>
      obtain ⟨h1, h2, h3⟩ := hwf
      exact roundTrip_byHash h mh sk rv h1 h2 h3
  | BlockHeaders hs => exact roundTrip_blockHeaders hs
  | GetBlockBodies hs => exact roundTrip_getBlockBodies hs hwf
  | BlockBodies bodies => exact absurd rfl (hbb bodies)
  | NewBlock b td => exact roundTrip_newBlock b td hwf
  | Unknown => exact roundTrip_unknown

/-- C1 counterexample.  The round-trip law fails as universally stated:
(a) a one-body `BlockBodies` message encodes without the enclosing list,
so decoding its encoding with id 6 fails with `RlpIsTooShort`; (b) a
`GetBlockHeadersByNumber` whose number is `2^248` encodes that number to
exactly 32 bytes, so decoding its encoding with id 3 returns the by-hash
variant instead. -/
theorem claim_C1_counterexample :
    roundTrip (.BlockBodies [([], [])]) ≠
      .ok (.BlockBodies [([], [])]) ∧
    roundTrip (.BlockBodies [([], [])]) = .error .RlpIsTooShort ∧
    roundTrip (.GetBlockHeadersByNumber (2 ^ 248) 0 0 false) ≠
      .ok (.GetBlockHeadersByNumber (2 ^ 248) 0 0 false) ∧
    roundTrip (.GetBlockHeadersByNumber (2 ^ 248) 0 0 false) =
      .ok (.GetBlockHeadersByHash (1 :: List.replicate 31 0) 0 0 false) := by
  refine ⟨?_, rfl, ?_, rfl⟩
  · intro h
    rw [show roundTrip (.BlockBodies [([], [])]) =
      Except.error .RlpIsTooShort from rfl] at h
    cases h
  · intro h
    rw [show roundTrip (.GetBlockHeadersByNumber (2 ^ 248) 0 0 false) =
      Except.ok (.GetBlockHeadersByHash (1 :: List.replicate 31 0) 0 0 false)
      from rfl] at h
    simp at h


/-- C1 witness: a concrete by-hash header request round-trips. -/
theorem claim_C1_witness :
    wfMsg (.GetBlockHeadersByHash (List.replicate 32 0) 2048 0 false) ∧
    roundTrip (.GetBlockHeadersByHash (List.replicate 32 0) 2048 0 false) =
      .ok (.GetBlockHeadersByHash (List.replicate 32 0) 2048 0 false) := by
  have hwf : wfMsg (ETHMessage.GetBlockHeadersByHash
      (List.replicate 32 0) 2048 0 false) :=
    ⟨by simp, by norm_num, by norm_num⟩
  exact ⟨hwf, claim_C1_roundTrip_amended _ hwf
    (fun bodies hc => by cases hc) (fun n mh sk rv hc => by cases hc)⟩

theorem decode_unknown_of_gt (r : RLPItem) (i : Nat) (h : 7 < i) :
    ETHMessage.decode r i = .ok .Unknown := by
  have hne : ¬ i = 0 ∧ ¬ i = 1 ∧ ¬ i = 2 ∧ ¬ i = 3 ∧ ¬ i = 4 ∧
      ¬ i = 5 ∧ ¬ i = 6 ∧ ¬ i = 7 := by omega
  obtain ⟨h0, h1, h2, h3, h4, h5, h6, h7⟩ := hne
  simp [ETHMessage.decode, h0, h1, h2, h3, h4, h5, h6, h7]

theorem exceptBindOk {α β : Type} {e : Except DecoderError α}
    {f : α → Except DecoderError β} {b : β} :
    Except.bind e f = Except.ok b ↔
      ∃ a, e = Except.ok a ∧ f a = Except.ok b := by
  cases e <;> simp [Except.bind]

theorem decode0_shape (r : RLPItem) (m : ETHMessage)
    (h : ETHMessage.decode r 0 = .ok m) :
    ∃ pv nid td bh gh, m = .Status pv nid td bh gh := by
  unfold ETHMessage.decode at h
  rw [if_pos rfl] at h
  simp only [Bind.bind, exceptBindOk] at h
  obtain ⟨pv, -, nid, -, td, -, bh, -, gh, -, hm⟩ := h
  exact ⟨pv, nid, td, bh, gh, by cases hm; rfl⟩

theorem decode1_shape (r : RLPItem) (m : ETHMessage)
    (h : ETHMessage.decode r 1 = .ok m) :
    ∃ l, m = .NewBlockHashes l := by
  unfold ETHMessage.decode at h
  rw [if_neg (by decide), if_pos rfl] at h
  simp only [Bind.bind, exceptBindOk] at h
  obtain ⟨n, -, l, -, hm⟩ := h
  exact ⟨l, by cases hm; rfl⟩

theorem decode2_shape (r : RLPItem) (m : ETHMessage)
    (h : ETHMessage.decode r 2 = .ok m) :
    ∃ l, m = .Transactions l := by
  unfold ETHMessage.decode at h
  rw [if_neg (by decide), if_neg (by decide), if_pos rfl] at h
  simp only [Bind.bind, exceptBindOk] at h
  obtain ⟨l, -, hm⟩ := h
  exact ⟨l, by cases hm; rfl⟩

theorem decode3_shape (r : RLPItem) (m : ETHMessage)
    (h : ETHMessage.decode r 3 = .ok m) :
    ∃ v i0, valAtUint 4 r 3 = .ok v ∧ rlpAt r 0 = .ok i0 ∧
      ((rlpSize i0 = 32 ∧ ∃ hsh mh sk,
          valAtH256 r 0 = .ok hsh ∧ valAtUint 8 r 1 = .ok mh ∧
          valAtUint 8 r 2 = .ok sk ∧
          m = .GetBlockHeadersByHash hsh mh sk
            (if v = 0 then false else true)) ∨
       (rlpSize i0 ≠ 32 ∧ ∃ n mh sk,
          valAtUint 32 r 0 = .ok n ∧ valAtUint 8 r 1 = .ok mh ∧
          valAtUint 8 r 2 = .ok sk ∧
          m = .GetBlockHeadersByNumber n mh sk
            (if v = 0 then false else true))) := by
  unfold ETHMessage.decode at h
  rw [if_neg (by decide), if_neg (by decide), if_neg (by decide),
    if_pos rfl] at h
  simp only [Bind.bind, exceptBindOk] at h
  obtain ⟨v, hv, i0, hi0, h⟩ := h
  refine ⟨v, i0, hv, hi0, ?_⟩
  by_cases hs : rlpSize i0 = 32
  · rw [if_pos hs] at h
    simp only [exceptBindOk] at h
    obtain ⟨hsh, hh, mh, hmh, sk, hsk, hm⟩ := h
    exact Or.inl ⟨hs, hsh, mh, sk, hh, hmh, hsk, by cases hm; rfl⟩
  · rw [if_neg hs] at h
    simp only [exceptBindOk] at h
    obtain ⟨n, hn, mh, hmh, sk, hsk, hm⟩ := h
    exact Or.inr ⟨hs, n, mh, sk, hn, hmh, hsk, by cases hm; rfl⟩

theorem decode4_shape (r : RLPItem) (m : ETHMessage)
    (h : ETHMessage.decode r 4 = .ok m) :
    ∃ l, m = .BlockHeaders l := by
  unfold ETHMessage.decode at h
  rw [if_neg (by decide), if_neg (by decide), if_neg (by decide),
    if_neg (by decide), if_pos rfl] at h
  simp only [Bind.bind, exceptBindOk] at h
  obtain ⟨l, -, hm⟩ := h
  exact ⟨l, by cases hm; rfl⟩

theorem decode5_shape (r : RLPItem) (m : ETHMessage)
    (h : ETHMessage.decode r 5 = .ok m) :
    ∃ l, m = .GetBlockBodies l := by
  unfold ETHMessage.decode at h
  rw [if_neg (by decide), if_neg (by decide), if_neg (by decide),
    if_neg (by decide), if_neg (by decide), if_pos rfl] at h
  simp only [Bind.bind, exceptBindOk] at h
  obtain ⟨l, -, hm⟩ := h
  exact ⟨l, by cases hm; rfl⟩

theorem decode6_shape (r : RLPItem) (m : ETHMessage)
    (h : ETHMessage.decode r 6 = .ok m) :
    ∃ l, m = .BlockBodies l := by
  unfold ETHMessage.decode at h
  rw [if_neg (by decide), if_neg (by decide), if_neg (by decide),
    if_neg (by decide), if_neg (by decide), if_neg (by decide),
    if_pos rfl] at h
  simp only [Bind.bind, exceptBindOk] at h
  obtain ⟨n, -, l, -, hm⟩ := h
  exact ⟨l, by cases hm; rfl⟩

theorem decode7_shape (r : RLPItem) (m : ETHMessage)
    (h : ETHMessage.decode r 7 = .ok m) :
    ∃ b td, m = .NewBlock b td := by
  unfold ETHMessage.decode at h
  rw [if_neg (by decide), if_neg (by decide), if_neg (by decide),
    if_neg (by decide), if_neg (by decide), if_neg (by decide),
    if_neg (by decide), if_pos rfl] at h
  simp only [Bind.bind, exceptBindOk] at h
  obtain ⟨x, -, b, -, td, -, hm⟩ := h
  exact ⟨b, td, by cases hm; rfl⟩

/-- C2.  Whenever decoding with id 3 succeeds, the variant is decided by
the byte width of the raw item at position 0: exactly 32 bytes gives the
by-hash variant, any other width the by-number variant, with the fields
taken from wire positions 0 to 3 in both cases. -/
theorem claim_C2_disambiguation (r : RLPItem) (m : ETHMessage)
    (h : ETHMessage.decode r 3 = .ok m) :
    ∃ i0, rlpAt r 0 = .ok i0 ∧
      ((rlpSize i0 = 32 ∧ ∃ hsh mh sk rv,
          valAtH256 r 0 = .ok hsh ∧ valAtUint 8 r 1 = .ok mh ∧
          valAtUint 8 r 2 = .ok sk ∧
          m = .GetBlockHeadersByHash hsh mh sk rv) ∨
       (rlpSize i0 ≠ 32 ∧ ∃ n mh sk rv,
          valAtUint 32 r 0 = .ok n ∧ valAtUint 8 r 1 = .ok mh ∧
          valAtUint 8 r 2 = .ok sk ∧
          m = .GetBlockHeadersByNumber n mh sk rv)) := by
  obtain ⟨v, i0, -, hi0, hc⟩ := decode3_shape r m h
  refine ⟨i0, hi0, ?_⟩
  rcases hc with ⟨hs, hsh, mh, sk, hh, hmh, hsk, hm⟩ |
    ⟨hs, n, mh, sk, hn, hmh, hsk, hm⟩
  · exact Or.inl ⟨hs, hsh, mh, sk, _, hh, hmh, hsk, hm⟩
  · exact Or.inr ⟨hs, n, mh, sk, _, hn, hmh, hsk, hm⟩

theorem claim_C2_witness :
    ETHMessage.decode
        (.list [.str (List.replicate 32 5), .str [], .str [], .str []]) 3 =
      .ok (.GetBlockHeadersByHash (List.replicate 32 5) 0 0 false) ∧
    (∃ i0, rlpAt (RLPItem.list
        [.str (List.replicate 32 5), .str [], .str [], .str []]) 0 =
          .ok i0 ∧
      ((rlpSize i0 = 32 ∧ ∃ hsh mh sk rv,
          valAtH256 (RLPItem.list
            [.str (List.replicate 32 5), .str [], .str [], .str []]) 0 =
              .ok hsh ∧
          valAtUint 8 (RLPItem.list
            [.str (List.replicate 32 5), .str [], .str [], .str []]) 1 =
              .ok mh ∧
          valAtUint 8 (RLPItem.list
            [.str (List.replicate 32 5), .str [], .str [], .str []]) 2 =
              .ok sk ∧
          ETHMessage.GetBlockHeadersByHash (List.replicate 32 5) 0 0 false =
            .GetBlockHeadersByHash hsh mh sk rv) ∨
       (rlpSize i0 ≠ 32 ∧ ∃ n mh sk rv,
          valAtUint 32 (RLPItem.list
            [.str (List.replicate 32 5), .str [], .str [], .str []]) 0 =
              .ok n ∧
          valAtUint 8 (RLPItem.list
            [.str (List.replicate 32 5), .str [], .str [], .str []]) 1 =
              .ok mh ∧
          valAtUint 8 (RLPItem.list
            [.str (List.replicate 32 5), .str [], .str [], .str []]) 2 =
              .ok sk ∧
          ETHMessage.GetBlockHeadersByHash (List.replicate 32 5) 0 0 false =
            .GetBlockHeadersByNumber n mh sk rv))) :=
  ⟨by rfl, claim_C2_disambiguation _ _ (by rfl)⟩

/-- C3.  For every raw record and every id outside 0-7, decode succeeds
and returns the Unknown variant, regardless of the record's contents. -/
theorem claim_C3_unknownId (r : RLPItem) (i : Nat) (h : 7 < i) :
    ETHMessage.decode r i = .ok .Unknown :=
  decode_unknown_of_gt r i h

theorem claim_C3_witness :
    7 < 99 ∧
    ETHMessage.decode (.list [.str [1], .list []]) 99 = .ok .Unknown :=
  ⟨by norm_num, claim_C3_unknownId (.list [.str [1], .list []]) 99
    (by norm_num)⟩

/-- C4.  The reverse field of both GetBlockHeaders variants is wire-encoded
at position 3 as an integer that is 0 exactly when the flag is false and 1
exactly when it is true; and whenever a record decodes with id 3, the
decoded reverse flag is false exactly when the wire integer at position 3
is 0 and true exactly when it is nonzero. -/
theorem claim_C4_reverseFlag :
    (∀ n mh sk rv, ∃ v,
      (ETHMessage.GetBlockHeadersByNumber n mh sk rv).rlp_append =
        [.list [encodeUint n, encodeUint mh, encodeUint sk, encodeUint v]] ∧
      (v = 0 ↔ rv = false) ∧ (v = 1 ↔ rv = true)) ∧
    (∀ hsh mh sk rv, ∃ v,
      (ETHMessage.GetBlockHeadersByHash hsh mh sk rv).rlp_append =
        [.list [.str hsh, encodeUint mh, encodeUint sk, encodeUint v]] ∧
      (v = 0 ↔ rv = false) ∧ (v = 1 ↔ rv = true)) ∧
    (∀ r m, ETHMessage.decode r 3 = .ok m →
      ∃ v, valAtUint 4 r 3 = .ok v ∧
        (m.reverseFlag = some false ↔ v = 0) ∧
        (m.reverseFlag = some true ↔ v ≠ 0)) := by
  refine ⟨?_, ?_, ?_⟩
  · intro n mh sk rv
    exact ⟨if rv then 1 else 0, rfl, by cases rv <;> simp,
      by cases rv <;> simp⟩
  · intro hsh mh sk rv
    exact ⟨if rv then 1 else 0, rfl, by cases rv <;> simp,
      by cases rv <;> simp⟩
  · intro r m h
    obtain ⟨v, i0, hv, -, hc⟩ := decode3_shape r m h
    refine ⟨v, hv, ?_⟩
    rcases hc with ⟨-, hsh, mh, sk, -, -, -, rfl⟩ |
      ⟨-, n, mh, sk, -, -, -, rfl⟩ <;>
      by_cases hz : v = 0 <;> simp [ETHMessage.reverseFlag, hz]

theorem claim_C4_witness :
    ETHMessage.decode
        (.list [.str (List.replicate 32 5), .str [], .str [], .str [2]]) 3 =
      .ok (.GetBlockHeadersByHash (List.replicate 32 5) 0 0 true) ∧
    (∃ v, valAtUint 4 (RLPItem.list
        [.str (List.replicate 32 5), .str [], .str [], .str [2]]) 3 =
          .ok v ∧
      ((ETHMessage.GetBlockHeadersByHash
          (List.replicate 32 5) 0 0 true).reverseFlag = some false ↔
        v = 0) ∧
      ((ETHMessage.GetBlockHeadersByHash
          (List.replicate 32 5) 0 0 true).reverseFlag = some true ↔
        v ≠ 0)) :=
  ⟨by rfl, claim_C4_reverseFlag.2.2 _ _ (by rfl)⟩

/-- C5.  Empty-list edge cases: `NewBlockHashes []` round-trips; encoding
`Unknown` yields the empty list record; decoding the empty list record with
id 1 yields `NewBlockHashes []` and with id 5 yields `GetBlockBodies []` —
all successes, never decode errors. -/
theorem claim_C5_emptyLists :
    roundTrip (.NewBlockHashes []) = .ok (.NewBlockHashes []) ∧
    ETHMessage.Unknown.rlp_append = [.list []] ∧
    ETHMessage.decode (.list []) 1 = .ok (.NewBlockHashes []) ∧
    ETHMessage.decode (.list []) 5 = .ok (.GetBlockBodies []) :=
  ⟨rfl, rfl, rfl, rfl⟩

/-- C6.  The id function is total over the ten variants and returns the
tabulated wire identifier: Status 0, NewBlockHashes 1, Transactions 2, both
GetBlockHeaders variants 3, BlockHeaders 4, GetBlockBodies 5, BlockBodies
6, NewBlock 7, Unknown 127. -/
theorem claim_C6_idTable :
    (∀ pv nid td bh gh, (ETHMessage.Status pv nid td bh gh).id = 0) ∧
    (∀ hs, (ETHMessage.NewBlockHashes hs).id = 1) ∧
    (∀ ts, (ETHMessage.Transactions ts).id = 2) ∧
    (∀ n mh sk rv, (ETHMessage.GetBlockHeadersByNumber n mh sk rv).id = 3) ∧
    (∀ hsh mh sk rv, (ETHMessage.GetBlockHeadersByHash hsh mh sk rv).id = 3) ∧
    (∀ hs, (ETHMessage.BlockHeaders hs).id = 4) ∧
    (∀ hs, (ETHMessage.GetBlockBodies hs).id = 5) ∧
    (∀ bs, (ETHMessage.BlockBodies bs).id = 6) ∧
    (∀ b td, (ETHMessage.NewBlock b td).id = 7) ∧
    ETHMessage.Unknown.id = 127 :=
  ⟨fun _ _ _ _ _ => rfl, fun _ => rfl, fun _ => rfl, fun _ _ _ _ => rfl,
    fun _ _ _ _ => rfl, fun _ => rfl, fun _ => rfl, fun _ => rfl,
    fun _ _ => rfl, rfl⟩

/-- C10.  Decode is consistent with id: if decoding a record with id `i`
in 0-7 succeeds, the returned message's own id equals `i` (never the
Unknown variant), and for `i` outside 0-7 the returned message's id is
127. -/
theorem claim_C10_decodeId (r : RLPItem) (i : Nat) (m : ETHMessage)
    (h : ETHMessage.decode r i = .ok m) :
    (i ≤ 7 → m.id = i) ∧ (7 < i → m.id = 127) := by
  constructor
  · intro hle
    interval_cases i
    · obtain ⟨pv, nid, td, bh, gh, rfl⟩ := decode0_shape r m h; rfl
    · obtain ⟨l, rfl⟩ := decode1_shape r m h; rfl
    · obtain ⟨l, rfl⟩ := decode2_shape r m h; rfl
    · obtain ⟨v, i0, -, -, hc⟩ := decode3_shape r m h
      rcases hc with ⟨-, hsh, mh, sk, -, -, -, rfl⟩ |
        ⟨-, n, mh, sk, -, -, -, rfl⟩ <;> rfl
    · obtain ⟨l, rfl⟩ := decode4_shape r m h; rfl
    · obtain ⟨l, rfl⟩ := decode5_shape r m h; rfl
    · obtain ⟨l, rfl⟩ := decode6_shape r m h; rfl
    · obtain ⟨b, td, rfl⟩ := decode7_shape r m h; rfl
  · intro hgt
    rw [decode_unknown_of_gt r i hgt] at h
    cases h
    rfl

theorem claim_C10_witness :
    (ETHMessage.NewBlockHashes []).id = 1 ∧
    (ETHMessage.Unknown).id = 127 :=
  ⟨(claim_C10_decodeId (.list []) 1 (.NewBlockHashes []) (by rfl)).1
      (by norm_num),
    (claim_C10_decodeId (.list []) 99 .Unknown (by rfl)).2 (by norm_num)⟩

theorem drainLoop_spec :
    ∀ (script : List (Except IoError (Async (Option DPTNode)))) (st st₁ : DevSt),
    drainLoop script st = .ok st₁ →
    (∃ d, st₁.trace = st.trace ++ d ∧ d ≠ [] ∧ (∀ e ∈ d, isDrainEvent e)) ∧
    st₁.rlpxPeers = st.rlpxPeers ++
      (readyNodes script).map (fun n => (n.address, n.tcp_port, n.id)) ∧
    st₁.now = st.now ∧ st₁.optDeadline = st.optDeadline ∧
    st₁.pingDeadline = st.pingDeadline ∧ st₁.optInterval = st.optInterval ∧
    st₁.pingInterval = st.pingInterval ∧
    st₁.pingTimeoutInterval = st.pingTimeoutInterval ∧
    st₁.optimalPeersLen = st.optimalPeersLen ∧
    st₁.rlpxActive = st.rlpxActive ∧ st₁.dptSent = st.dptSent ∧
    st₁.dptFlushScript = st.dptFlushScript ∧
    st₁.rlpxFlushScript = st.rlpxFlushScript ∧
    st₁.rlpxPollScript = st.rlpxPollScript := by
  intro script
  induction script with
  | nil =>
      intro st st₁ h
      cases h
      refine ⟨⟨[Event.dptPolled], rfl, by simp, ?_⟩, ?_⟩
      · intro e he
        simp at he
        subst he
        trivial
      · simp [pushEvent, readyNodes]
  | cons r rest ih =>
      intro st st₁ h
      match r with
      | .error e => exact absurd h (by simp [drainLoop])
      | .ok (.ready (some n)) =>
          simp only [drainLoop] at h
          obtain ⟨⟨d, hd, -, hde⟩, hrest⟩ :=
            ih (rlpxAddPeer (pushEvent { st with dptPollScript := rest }
              .dptPolled) n) st₁ h
          refine ⟨⟨Event.dptPolled :: Event.rlpxAddPeer n.address n.tcp_port
            n.id :: d, ?_, by simp, ?_⟩, ?_⟩
          · rw [hd]
            simp [rlpxAddPeer, pushEvent]
          · intro e he
            rcases List.mem_cons.mp he with rfl | he
            · trivial
            rcases List.mem_cons.mp he with rfl | he
            · trivial
            · exact hde e he
          · simp only [rlpxAddPeer, pushEvent] at hrest
            simp only [readyNodes, List.map_cons] at *
            obtain ⟨hp, hrest⟩ := hrest
            refine ⟨?_, by simpa using hrest⟩
            rw [hp]
            simp
      | .ok (.ready none) =>
          simp only [drainLoop] at h
          cases h
          refine ⟨⟨[Event.dptPolled], by simp [pushEvent], by simp, ?_⟩, ?_⟩
          · intro e he
            simp at he
            subst he
            trivial
          · simp [pushEvent, readyNodes]
      | .ok .notReady =>
          simp only [drainLoop] at h
          cases h
          refine ⟨⟨[Event.dptPolled], by simp [pushEvent], by simp, ?_⟩, ?_⟩
          · intro e he
            simp at he
            subst he
            trivial
          · simp [pushEvent, readyNodes]

theorem rlpxPoll_spec (st st₁ : DevSt) (res : Async (Option Nat))
    (h : rlpxPoll st = .ok (st₁, res)) :
    st₁.trace = st.trace ++ [Event.rlpxPolled] ∧
    st₁.rlpxPeers = st.rlpxPeers ∧ st₁.now = st.now ∧
    st₁.optDeadline = st.optDeadline ∧
    st₁.pingDeadline = st.pingDeadline ∧
    st₁.optInterval = st.optInterval ∧
    st₁.pingInterval = st.pingInterval ∧
    st₁.pingTimeoutInterval = st.pingTimeoutInterval ∧
    st₁.optimalPeersLen = st.optimalPeersLen ∧
    st₁.rlpxActive = st.rlpxActive ∧ st₁.dptSent = st.dptSent ∧
    st₁.dptFlushScript = st.dptFlushScript ∧
    st₁.rlpxFlushScript = st.rlpxFlushScript ∧
    st₁.dptPollScript = st.dptPollScript := by
  unfold rlpxPoll at h
  match hs : st.rlpxPollScript with
  | [] =>
      rw [hs] at h
      cases h
      simp [pushEvent]
  | r :: rest =>
      rw [hs] at h
      match r with
      | .error e => exact absurd h (by simp)
      | .ok a =>
          simp at h
          obtain ⟨h1, -⟩ := h
          cases h1
          simp [pushEvent]

theorem dptPollComplete_spec (st st₁ : DevSt) (a : Async Unit)
    (h : dptPollComplete st = .ok (st₁, a)) :
    st₁.trace = st.trace ++ [Event.dptFlushPolled] ∧
    st₁.rlpxPeers = st.rlpxPeers ∧ st₁.now = st.now ∧
    st₁.optDeadline = st.optDeadline ∧
    st₁.pingDeadline = st.pingDeadline ∧
    st₁.optInterval = st.optInterval ∧
    st₁.pingInterval = st.pingInterval ∧
    st₁.pingTimeoutInterval = st.pingTimeoutInterval ∧
    st₁.optimalPeersLen = st.optimalPeersLen ∧
    st₁.rlpxActive = st.rlpxActive ∧ st₁.dptSent = st.dptSent ∧
    st₁.rlpxFlushScript = st.rlpxFlushScript ∧
    st₁.dptPollScript = st.dptPollScript ∧
    st₁.rlpxPollScript = st.rlpxPollScript := by
  unfold dptPollComplete at h
  match hs : st.dptFlushScript with
  | [] =>
      rw [hs] at h
      cases h
      simp [pushEvent]
  | r :: rest =>
      rw [hs] at h
      match r with
      | .error e => exact absurd h (by simp)
      | .ok b =>
          simp at h
          obtain ⟨h1, -⟩ := h
          cases h1
          simp [pushEvent]

theorem requestNewPeersLoop_trace :
    ∀ (fuel : Nat) (st st₁ : DevSt) (a : Async Unit),
    requestNewPeersLoop fuel st a = some (.ok st₁) →
    st₁.rlpxPeers = st.rlpxPeers ∧
    ∃ q, st₁.trace = st.trace ++ q ∧ (∀ e ∈ q, isReplenishEvent e) := by
  intro fuel
  induction fuel with
  | zero =>
      intro st st₁ a h
      match a with
      | .notReady =>
          simp [requestNewPeersLoop] at h
          cases h
          exact ⟨rfl, ⟨[], by simp, by simp⟩⟩
      | .ready _ => exact absurd h (by simp [requestNewPeersLoop])
  | succ fuel ih =>
      intro st st₁ a h
      match a with
      | .notReady =>
          simp [requestNewPeersLoop] at h
          cases h
          exact ⟨rfl, ⟨[], by simp, by simp⟩⟩
      | .ready _ =>
          simp only [requestNewPeersLoop] at h
          by_cases hlt : st.rlpxActive.length < st.optimalPeersLen
          · rw [if_pos hlt] at h
            match hc : dptPollComplete (dptStartSend st .RequestNewPeer) with
            | .error e => rw [hc] at h; exact absurd h (by simp)
            | .ok (st₂, b) =>
                rw [hc] at h
                obtain ⟨hpeers, q, hq, hqe⟩ := ih _ _ _ h
                obtain ⟨ht, hpc⟩ := dptPollComplete_spec _ _ _ hc
                constructor
                · rw [hpeers]
                  simp only [pollOptTimeout, pushEvent]
                  rw [hpc.1]
                  simp [dptStartSend, pushEvent]
                refine ⟨Event.dptSent .RequestNewPeer ::
                  Event.dptFlushPolled :: Event.optTimeoutPolled :: q,
                  ?_, ?_⟩
                · rw [hq]
                  simp only [pollOptTimeout, pushEvent]
                  rw [ht]
                  simp [dptStartSend, pushEvent]
                · intro e he
                  rcases List.mem_cons.mp he with rfl | he
                  · trivial
                  rcases List.mem_cons.mp he with rfl | he
                  · trivial
                  rcases List.mem_cons.mp he with rfl | he
                  · trivial
                  · exact hqe e he
          · rw [if_neg hlt] at h
            obtain ⟨hpeers, q, hq, hqe⟩ := ih _ _ _ h
            constructor
            · rw [hpeers]
              simp [pollOptTimeout, pushEvent]
            refine ⟨Event.optTimeoutPolled :: q, ?_, ?_⟩
            · rw [hq]
              simp [pollOptTimeout, pushEvent]
            · intro e he
              rcases List.mem_cons.mp he with rfl | he
              · trivial
              · exact hqe e he

theorem poll_dpt_request_new_peers_trace (fuel : Nat) (st st₁ : DevSt)
    (h : poll_dpt_request_new_peers fuel st = some (.ok st₁)) :
    st₁.rlpxPeers = st.rlpxPeers ∧
    ∃ q, st₁.trace = st.trace ++ q ∧ q ≠ [] ∧
      (∀ e ∈ q, isReplenishEvent e) := by
  unfold poll_dpt_request_new_peers at h
  obtain ⟨hpeers, q, hq, hqe⟩ := requestNewPeersLoop_trace _ _ _ _ h
  constructor
  · rw [hpeers]
    simp [pollOptTimeout, pushEvent]
  refine ⟨Event.optTimeoutPolled :: q, ?_, by simp, ?_⟩
  · rw [hq]
    simp [pollOptTimeout, pushEvent]
  · intro e he
    rcases List.mem_cons.mp he with rfl | he
    · trivial
    · exact hqe e he

theorem pingLoop_trace :
    ∀ (fuel : Nat) (st st₁ : DevSt) (a : Async Unit),
    pingLoop fuel st a = some (.ok st₁) →
    st₁.rlpxPeers = st.rlpxPeers ∧
    ∃ p, st₁.trace = st.trace ++ p ∧ (∀ e ∈ p, isPingEvent e) := by
  intro fuel
  induction fuel with
  | zero =>
      intro st st₁ a h
      match a with
      | .notReady =>
          simp [pingLoop] at h
          cases h
          exact ⟨rfl, ⟨[], by simp, by simp⟩⟩
      | .ready _ => exact absurd h (by simp [pingLoop])
  | succ fuel ih =>
      intro st st₁ a h
      match a with
      | .notReady =>
          simp [pingLoop] at h
          cases h
          exact ⟨rfl, ⟨[], by simp, by simp⟩⟩
      | .ready _ =>
          simp only [pingLoop] at h
          match hc : dptPollComplete (dptStartSend st
              (.Ping (st.now + st.pingTimeoutInterval))) with
          | .error e => rw [hc] at h; exact absurd h (by simp)
          | .ok (st₂, b) =>
              rw [hc] at h
              obtain ⟨hpeers, p, hp, hpe⟩ := ih _ _ _ h
              obtain ⟨ht, hpc⟩ := dptPollComplete_spec _ _ _ hc
              constructor
              · rw [hpeers]
                simp only [pollPingTimeout, pushEvent]
                rw [hpc.1]
                simp [dptStartSend, pushEvent]
              refine ⟨Event.dptSent
                  (.Ping (st.now + st.pingTimeoutInterval)) ::
                Event.dptFlushPolled :: Event.pingTimeoutPolled :: p, ?_, ?_⟩
              · rw [hp]
                simp only [pollPingTimeout, pushEvent]
                rw [ht]
                simp [dptStartSend, pushEvent]
              · intro e he
                rcases List.mem_cons.mp he with rfl | he
                · trivial
                rcases List.mem_cons.mp he with rfl | he
                · trivial
                rcases List.mem_cons.mp he with rfl | he
                · trivial
                · exact hpe e he

theorem poll_dpt_ping_trace (fuel : Nat) (st st₁ : DevSt)
    (h : poll_dpt_ping fuel st = some (.ok st₁)) :
    st₁.rlpxPeers = st.rlpxPeers ∧
    ∃ p, st₁.trace = st.trace ++ p ∧ p ≠ [] ∧ (∀ e ∈ p, isPingEvent e) := by
  unfold poll_dpt_ping at h
  obtain ⟨hpeers, p, hp, hpe⟩ := pingLoop_trace _ _ _ _ h
  constructor
  · rw [hpeers]
    simp [pollPingTimeout, pushEvent]
  refine ⟨Event.pingTimeoutPolled :: p, ?_, by simp, ?_⟩
  · rw [hp]
    simp [pollPingTimeout, pushEvent]
  · intro e he
    rcases List.mem_cons.mp he with rfl | he
    · trivial
    · exact hpe e he

/-- C7.  Every successful poll turn of the orchestrator runs the four
sub-steps in the fixed order drain-discovery, transport poll, replenishment
timer, ping timer: the appended trace decomposes into a non-empty block of
drain events, then the transport poll, then a non-empty block of
replenishment-timer events, then a non-empty block of ping-timer events —
so every discovered-peer registration precedes this turn's transport poll,
and a not-ready sub-step never prevents the later sub-steps (each block is
non-empty in every successful turn).  The ready prefix of the discovery
script is registered with the transport. -/
theorem claim_C7_pollOrder (fuel : Nat) (st st' : DevSt)
    (res : Async (Option Nat))
    (h : devPoll fuel st = some (.ok (st', res))) :
    ∃ d q p, st'.trace = st.trace ++ d ++ [Event.rlpxPolled] ++ q ++ p ∧
      d ≠ [] ∧ (∀ e ∈ d, isDrainEvent e) ∧
      q ≠ [] ∧ (∀ e ∈ q, isReplenishEvent e) ∧
      p ≠ [] ∧ (∀ e ∈ p, isPingEvent e) ∧
      st'.rlpxPeers = st.rlpxPeers ++
        (readyNodes st.dptPollScript).map
          (fun n => (n.address, n.tcp_port, n.id)) := by
  unfold devPoll at h
  match h1 : poll_dpt_receive_peers st with
  | .error e => rw [h1] at h; simp at h
  | .ok st₁ =>
      rw [h1] at h
      simp only [] at h
      match h2 : rlpxPoll st₁ with
      | .error e => rw [h2] at h; simp at h
      | .ok (st₂, r₂) =>
          rw [h2] at h
          simp only [] at h
          match h3 : poll_dpt_request_new_peers fuel st₂ with
          | none => rw [h3] at h; simp at h
          | some (.error e) => rw [h3] at h; simp at h
          | some (.ok st₃) =>
              rw [h3] at h
              simp only [] at h
              match h4 : poll_dpt_ping fuel st₃ with
              | none => rw [h4] at h; simp at h
              | some (.error e) => rw [h4] at h; simp at h
              | some (.ok st₄) =>
                  rw [h4] at h
                  simp at h
                  obtain ⟨hst, -⟩ := h
                  subst hst
                  obtain ⟨⟨d, hd, hdne, hde⟩, hpeers₁, -⟩ :=
                    drainLoop_spec st.dptPollScript st st₁ h1
                  obtain ⟨ht₂, hpeers₂, -⟩ := rlpxPoll_spec st₁ st₂ r₂ h2
                  obtain ⟨hpeers₃, q, hq, hqne, hqe⟩ :=
                    poll_dpt_request_new_peers_trace fuel st₂ st₃ h3
                  obtain ⟨hpeers₄, p, hp, hpne, hpe⟩ :=
                    poll_dpt_ping_trace fuel st₃ st₄ h4
                  refine ⟨d, q, p, ?_, hdne, hde, hqne, hqe, hpne, hpe, ?_⟩
                  · rw [hp, hq, ht₂, hd]
                  · rw [hpeers₄, hpeers₃, hpeers₂, hpeers₁]

theorem receive_peers_empty (st : DevSt) (h : st.dptPollScript = []) :
    poll_dpt_receive_peers st = .ok (pushEvent st .dptPolled) := by
  unfold poll_dpt_receive_peers
  rw [h]
  rfl

theorem rlpxPoll_empty (st : DevSt) (h : st.rlpxPollScript = []) :
    rlpxPoll st = .ok (pushEvent st .rlpxPolled, .notReady) := by
  unfold rlpxPoll
  rw [h]

theorem replenish_notElapsed (fuel : Nat) (st : DevSt)
    (h : ¬ st.optDeadline ≤ st.now) :
    poll_dpt_request_new_peers fuel st =
      some (.ok (pushEvent st .optTimeoutPolled)) := by
  unfold poll_dpt_request_new_peers pollOptTimeout timeoutElapsed
  simp only [pushEvent]
  rw [if_neg (by simpa [pushEvent] using h)]
  simp [requestNewPeersLoop, pushEvent]

theorem replenish_fires (fuel : Nat) (st : DevSt)
    (hfu : 0 < fuel)
    (he : st.optDeadline ≤ st.now)
    (hlt : st.rlpxActive.length < st.optimalPeersLen)
    (hfl : st.dptFlushScript = [])
    (hint : 0 < st.optInterval) :
    ∃ st', poll_dpt_request_new_peers fuel st = some (.ok st') ∧
      st'.dptSent = st.dptSent ++ [.RequestNewPeer] ∧
      st'.optDeadline = st.now + st.optInterval ∧
      st'.now = st.now ∧ st'.pingDeadline = st.pingDeadline ∧
      st'.optInterval = st.optInterval ∧
      st'.pingInterval = st.pingInterval ∧
      st'.pingTimeoutInterval = st.pingTimeoutInterval ∧
      st'.optimalPeersLen = st.optimalPeersLen ∧
      st'.rlpxActive = st.rlpxActive ∧
      st'.rlpxPeers = st.rlpxPeers ∧
      st'.dptPollScript = st.dptPollScript ∧
      st'.rlpxPollScript = st.rlpxPollScript ∧
      st'.dptFlushScript = [] ∧
      st'.rlpxFlushScript = st.rlpxFlushScript := by
  obtain ⟨f, rfl⟩ : ∃ f, fuel = f + 1 := ⟨fuel - 1, by omega⟩
  have hnot : ¬ (st.now + st.optInterval ≤ st.now) := by omega
  refine ⟨pushEvent { pushEvent (dptStartSend (pushEvent st
      .optTimeoutPolled) .RequestNewPeer) .dptFlushPolled with
      optDeadline := st.now + st.optInterval } .optTimeoutPolled,
    ?_, ?_, ?_, ?_, ?_, ?_, ?_, ?_, ?_, ?_, ?_, ?_, ?_, ?_, ?_⟩
  · unfold poll_dpt_request_new_peers pollOptTimeout timeoutElapsed
    simp only [pushEvent]
    rw [if_pos (by simpa [pushEvent] using he)]
    unfold requestNewPeersLoop
    rw [if_pos (by simpa [pushEvent] using hlt)]
    simp only [dptStartSend, dptPollComplete, pushEvent, hfl]
    unfold pollOptTimeout timeoutElapsed
    simp only [pushEvent]
    rw [if_neg (by simpa [pushEvent] using hnot)]
    simp [requestNewPeersLoop, pushEvent]
  all_goals simp [pushEvent, dptStartSend, hfl]

theorem replenish_noRequest (fuel : Nat) (st : DevSt)
    (hfu : 0 < fuel)
    (he : st.optDeadline ≤ st.now)
    (hge : ¬ st.rlpxActive.length < st.optimalPeersLen)
    (hint : 0 < st.optInterval) :
    poll_dpt_request_new_peers fuel st = some (.ok
      (pushEvent { pushEvent st .optTimeoutPolled with
        optDeadline := st.now + st.optInterval } .optTimeoutPolled)) := by
  obtain ⟨f, rfl⟩ : ∃ f, fuel = f + 1 := ⟨fuel - 1, by omega⟩
  have hnot : ¬ (st.now + st.optInterval ≤ st.now) := by omega
  unfold poll_dpt_request_new_peers pollOptTimeout timeoutElapsed
  simp only [pushEvent]
  rw [if_pos (by simpa [pushEvent] using he)]
  unfold requestNewPeersLoop
  rw [if_neg (by simpa [pushEvent] using hge)]
  unfold pollOptTimeout timeoutElapsed
  simp only [pushEvent]
  rw [if_neg (by simpa [pushEvent] using hnot)]
  simp [requestNewPeersLoop, pushEvent]

theorem ping_notElapsed (fuel : Nat) (st : DevSt)
    (h : ¬ st.pingDeadline ≤ st.now) :
    poll_dpt_ping fuel st =
      some (.ok (pushEvent st .pingTimeoutPolled)) := by
  unfold poll_dpt_ping pollPingTimeout timeoutElapsed
  simp only [pushEvent]
  rw [if_neg (by simpa [pushEvent] using h)]
  simp [pingLoop, pushEvent]

theorem ping_fires (fuel : Nat) (st : DevSt)
    (hfu : 0 < fuel)
    (he : st.pingDeadline ≤ st.now)
    (hfl : st.dptFlushScript = [])
    (hint : 0 < st.pingInterval) :
    ∃ st', poll_dpt_ping fuel st = some (.ok st') ∧
      st'.dptSent = st.dptSent ++
        [.Ping (st.now + st.pingTimeoutInterval)] ∧
      st'.pingDeadline = st.now + st.pingInterval ∧
      st'.now = st.now ∧ st'.optDeadline = st.optDeadline ∧
      st'.optInterval = st.optInterval ∧
      st'.pingInterval = st.pingInterval ∧
      st'.pingTimeoutInterval = st.pingTimeoutInterval ∧
      st'.optimalPeersLen = st.optimalPeersLen ∧
      st'.rlpxActive = st.rlpxActive ∧
      st'.rlpxPeers = st.rlpxPeers ∧
      st'.dptPollScript = st.dptPollScript ∧
      st'.rlpxPollScript = st.rlpxPollScript ∧
      st'.dptFlushScript = [] ∧
      st'.rlpxFlushScript = st.rlpxFlushScript := by
  obtain ⟨f, rfl⟩ : ∃ f, fuel = f + 1 := ⟨fuel - 1, by omega⟩
  have hnot : ¬ (st.now + st.pingInterval ≤ st.now) := by omega
  refine ⟨pushEvent { pushEvent (dptStartSend (pushEvent st
      .pingTimeoutPolled) (.Ping (st.now + st.pingTimeoutInterval)))
      .dptFlushPolled with
      pingDeadline := st.now + st.pingInterval } .pingTimeoutPolled,
    ?_, ?_, ?_, ?_, ?_, ?_, ?_, ?_, ?_, ?_, ?_, ?_, ?_, ?_, ?_⟩
  · unfold poll_dpt_ping pollPingTimeout timeoutElapsed
    simp only [pushEvent]
    rw [if_pos (by simpa [pushEvent] using he)]
    unfold pingLoop
    simp only [dptStartSend, dptPollComplete, pushEvent, hfl]
    unfold pollPingTimeout timeoutElapsed
    simp only [pushEvent]
    rw [if_neg (by simpa [pushEvent] using hnot)]
    simp [pingLoop, pushEvent]
  all_goals simp [pushEvent, dptStartSend, hfl]

theorem countRequests_append (l₁ l₂ : List DPTMessage) :
    countRequests (l₁ ++ l₂) = countRequests l₁ + countRequests l₂ := by
  simp [countRequests, List.countP_append]

theorem scenarioStep (st : DevSt) (hinv : scenarioInv st) :
    ∃ st', devPoll 1 { st with now := st.optDeadline } =
        some (.ok (st', .notReady)) ∧
      scenarioInv st' ∧
      countRequests st'.dptSent = countRequests st.dptSent + 1 ∧
      st'.optDeadline = st.optDeadline + st.optInterval ∧
      st'.optInterval = st.optInterval := by
  obtain ⟨h1, h2, h3, h4, h5, h6, h7⟩ := hinv
  set st₀ : DevSt := { st with now := st.optDeadline } with hst₀
  have e1 : poll_dpt_receive_peers st₀ = .ok (pushEvent st₀ .dptPolled) :=
    receive_peers_empty st₀ (by simp [hst₀, h1])
  set st₁ : DevSt := pushEvent st₀ .dptPolled with hst₁
  have e2 : rlpxPoll st₁ = .ok (pushEvent st₁ .rlpxPolled, .notReady) :=
    rlpxPoll_empty st₁ (by simp [hst₁, hst₀, pushEvent, h2])
  set st₂ : DevSt := pushEvent st₁ .rlpxPolled with hst₂
  obtain ⟨st₃, e3, p3sent, p3opt, p3now, p3ping, p3oi, p3pi, p3pti,
      p3opl, p3act, p3peers, p3dps, p3rps, p3dfs, p3rfs⟩ :=
    replenish_fires 1 st₂ (by norm_num)
      (by simp [hst₂, hst₁, hst₀, pushEvent])
      (by simp [hst₂, hst₁, hst₀, pushEvent, h5])
      (by simp [hst₂, hst₁, hst₀, pushEvent, h3])
      (by simp [hst₂, hst₁, hst₀, pushEvent, h6])
  have hnow₂ : st₂.now = st.optDeadline := by
    simp [hst₂, hst₁, hst₀, pushEvent]
  have hpd₂ : st₂.pingDeadline = st.pingDeadline := by
    simp [hst₂, hst₁, hst₀, pushEvent]
  have hsent₂ : st₂.dptSent = st.dptSent := by
    simp [hst₂, hst₁, hst₀, pushEvent]
  have hoi₂ : st₂.optInterval = st.optInterval := by
    simp [hst₂, hst₁, hst₀, pushEvent]
  have hpi₂ : st₂.pingInterval = st.pingInterval := by
    simp [hst₂, hst₁, hst₀, pushEvent]
  have hact₂ : st₂.rlpxActive = st.rlpxActive := by
    simp [hst₂, hst₁, hst₀, pushEvent]
  have hopl₂ : st₂.optimalPeersLen = st.optimalPeersLen := by
    simp [hst₂, hst₁, hst₀, pushEvent]
  have hrps₂ : st₂.rlpxPollScript = st.rlpxPollScript := by
    simp [hst₂, hst₁, hst₀, pushEvent]
  have hrfs₂ : st₂.rlpxFlushScript = st.rlpxFlushScript := by
    simp [hst₂, hst₁, hst₀, pushEvent]
  have hdps₂ : st₂.dptPollScript = st.dptPollScript := by
    simp [hst₂, hst₁, hst₀, pushEvent]
  by_cases hping : st₃.pingDeadline ≤ st₃.now
  · -- the ping deadline has also elapsed at this turn
    obtain ⟨st₄, e4, q4sent, q4ping, q4now, q4opt, q4oi, q4pi, q4pti,
        q4opl, q4act, q4peers, q4dps, q4rps, q4dfs, q4rfs⟩ :=
      ping_fires 1 st₃ (by norm_num) hping p3dfs
        (by rw [p3pi, hpi₂]; exact h7)
    refine ⟨st₄, ?_, ?_, ?_, ?_, ?_⟩
    · unfold devPoll
      rw [e1]
      simp only []
      rw [e2]
      simp only []
      rw [e3]
      simp only []
      rw [e4]
    · refine ⟨?_, ?_, ?_, ?_, ?_, ?_, ?_⟩
      · rw [q4dps, p3dps, hdps₂, h1]
      · rw [q4rps, p3rps, hrps₂, h2]
      · exact q4dfs
      · rw [q4rfs, p3rfs, hrfs₂, h4]
      · rw [q4act, p3act, hact₂, q4opl, p3opl, hopl₂]
        exact h5
      · rw [q4oi, p3oi, hoi₂]
        exact h6
      · rw [q4pi, p3pi, hpi₂]
        exact h7
    · rw [q4sent, p3sent, hsent₂, countRequests_append,
        countRequests_append]
      simp [countRequests]
    · rw [q4opt, p3opt, hnow₂, hoi₂]
    · rw [q4oi, p3oi, hoi₂]
  · -- the ping deadline has not elapsed
    have e4 : poll_dpt_ping 1 st₃ =
        some (.ok (pushEvent st₃ .pingTimeoutPolled)) :=
      ping_notElapsed 1 st₃ hping
    refine ⟨pushEvent st₃ .pingTimeoutPolled, ?_, ?_, ?_, ?_, ?_⟩
    · unfold devPoll
      rw [e1]
      simp only []
      rw [e2]
      simp only []
      rw [e3]
      simp only []
      rw [e4]
    · refine ⟨?_, ?_, ?_, ?_, ?_, ?_, ?_⟩
      · rw [show (pushEvent st₃ .pingTimeoutPolled).dptPollScript =
          st₃.dptPollScript from rfl, p3dps, hdps₂, h1]
      · rw [show (pushEvent st₃ .pingTimeoutPolled).rlpxPollScript =
          st₃.rlpxPollScript from rfl, p3rps, hrps₂, h2]
      · rw [show (pushEvent st₃ .pingTimeoutPolled).dptFlushScript =
          st₃.dptFlushScript from rfl, p3dfs]
      · rw [show (pushEvent st₃ .pingTimeoutPolled).rlpxFlushScript =
          st₃.rlpxFlushScript from rfl, p3rfs, hrfs₂, h4]
      · rw [show (pushEvent st₃ .pingTimeoutPolled).rlpxActive =
          st₃.rlpxActive from rfl, p3act, hact₂,
          show (pushEvent st₃ .pingTimeoutPolled).optimalPeersLen =
          st₃.optimalPeersLen from rfl, p3opl, hopl₂]
        exact h5
      · rw [show (pushEvent st₃ .pingTimeoutPolled).optInterval =
          st₃.optInterval from rfl, p3oi, hoi₂]
        exact h6
      · rw [show (pushEvent st₃ .pingTimeoutPolled).pingInterval =
          st₃.pingInterval from rfl, p3pi, hpi₂]
        exact h7
    · rw [show (pushEvent st₃ .pingTimeoutPolled).dptSent =
        st₃.dptSent from rfl, p3sent, hsent₂, countRequests_append]
      simp [countRequests]
    · rw [show (pushEvent st₃ .pingTimeoutPolled).optDeadline =
        st₃.optDeadline from rfl, p3opt, hnow₂, hoi₂]
    · rw [show (pushEvent st₃ .pingTimeoutPolled).optInterval =
        st₃.optInterval from rfl, p3oi, hoi₂]

theorem iterateScenario_spec :
    ∀ (n : Nat) (st : DevSt), scenarioInv st →
    ∃ st', iterateScenario n st = some st' ∧
      countRequests st'.dptSent = countRequests st.dptSent + n ∧
      st'.optDeadline = st.optDeadline + n * st.optInterval ∧
      st'.optInterval = st.optInterval ∧ scenarioInv st' := by
  intro n
  induction n with
  | zero =>
      intro st h
      exact ⟨st, rfl, by simp, by simp, rfl, h⟩
  | succ n ih =>
      intro st h
      obtain ⟨st₁, e1, hinv₁, c1, d1, i1⟩ := scenarioStep st h
      obtain ⟨st', e', c', d', i', hinv'⟩ := ih st₁ hinv₁
      refine ⟨st', ?_, ?_, ?_, ?_, hinv'⟩
      · rw [iterateScenario, e1]
        exact e'
      · omega
      · rw [d', d1, i1]
        ring
      · rw [i', i1]

/-- C8.  The replenishment timer: when the deadline has not elapsed,
nothing is sent and the deadline is untouched; when it has elapsed with the
active-peer count below target, exactly one `RequestNewPeer` is submitted
and the deadline is rearmed to now plus the configured period; when it has
elapsed with the count at or above target, nothing is sent but the deadline
is still rearmed; and over `n` replenishment periods with the count
continuously below target (one poll turn per elapsed deadline), exactly `n`
`RequestNewPeer` messages are issued, the deadline advancing by one period
each turn. -/
theorem claim_C8_replenishment :
    (∀ (fuel : Nat) (st : DevSt), ¬ st.optDeadline ≤ st.now →
      poll_dpt_request_new_peers fuel st =
        some (.ok (pushEvent st .optTimeoutPolled))) ∧
    (∀ (fuel : Nat) (st : DevSt), 0 < fuel → st.optDeadline ≤ st.now →
      st.rlpxActive.length < st.optimalPeersLen →
      st.dptFlushScript = [] → 0 < st.optInterval →
      ∃ st', poll_dpt_request_new_peers fuel st = some (.ok st') ∧
        countRequests st'.dptSent = countRequests st.dptSent + 1 ∧
        st'.optDeadline = st.now + st.optInterval) ∧
    (∀ (fuel : Nat) (st : DevSt), 0 < fuel → st.optDeadline ≤ st.now →
      ¬ st.rlpxActive.length < st.optimalPeersLen → 0 < st.optInterval →
      ∃ st', poll_dpt_request_new_peers fuel st = some (.ok st') ∧
        countRequests st'.dptSent = countRequests st.dptSent ∧
        st'.optDeadline = st.now + st.optInterval) ∧
    (∀ (n : Nat) (st : DevSt), scenarioInv st →
      ∃ st', iterateScenario n st = some st' ∧
        countRequests st'.dptSent = countRequests st.dptSent + n ∧
        st'.optDeadline = st.optDeadline + n * st.optInterval) := by
  refine ⟨replenish_notElapsed, ?_, ?_, ?_⟩
  · intro fuel st hfu he hlt hfl hint
    obtain ⟨st', e, hsent, hopt, -⟩ :=
      replenish_fires fuel st hfu he hlt hfl hint
    exact ⟨st', e, by rw [hsent, countRequests_append]; rfl, hopt⟩
  · intro fuel st hfu he hge hint
    refine ⟨_, replenish_noRequest fuel st hfu he hge hint, ?_, ?_⟩
    · simp [pushEvent]
    · simp [pushEvent]
  · intro n st h
    obtain ⟨st', e, c, d, -, -⟩ := iterateScenario_spec n st h
    exact ⟨st', e, c, d⟩

/-- C9.  The flush operation polls the discovery collaborator's outbound
buffer first and the transport collaborator's only after discovery reports
complete, and it reports completion exactly when both collaborators report
their flush complete. -/
theorem claim_C9_flushOrder (st st' : DevSt) (r : Async Unit)
    (h : devPollComplete st = .ok (st', r)) :
    (r = .ready () ↔ flushHead st.dptFlushScript = .ok (.ready ()) ∧
      flushHead st.rlpxFlushScript = .ok (.ready ())) ∧
    (flushHead st.dptFlushScript = .ok (.ready ()) →
      st'.trace = st.trace ++
        [Event.dptFlushPolled, Event.rlpxFlushPolled]) ∧
    (flushHead st.dptFlushScript = .ok .notReady →
      st'.trace = st.trace ++ [Event.dptFlushPolled]) := by
  unfold devPollComplete dptPollComplete rlpxPollComplete at h
  match hd : st.dptFlushScript with
  | [] =>
      rw [hd] at h
      simp only [pushEvent] at h
      simp only [flushHead, hd, List.headD]
      match hr : st.rlpxFlushScript with
      | [] =>
          rw [hr] at h
          simp only [] at h
          cases h
          simp [pushEvent]
      | .error e :: rest => rw [hr] at h; simp at h
      | .ok .notReady :: rest =>
          rw [hr] at h
          simp only [] at h
          cases h
          simp [pushEvent]
      | .ok (.ready u) :: rest =>
          rw [hr] at h
          simp only [] at h
          cases h
          simp [pushEvent]
  | .error e :: rest => rw [hd] at h; simp at h
  | .ok .notReady :: rest =>
      rw [hd] at h
      simp only [] at h
      cases h
      simp only [flushHead, hd, List.headD]
      refine ⟨by simp [pushEvent], ?_, ?_⟩
      · intro hc
        cases hc
      · intro hc
        simp [pushEvent]
  | .ok (.ready u) :: rest =>
      rw [hd] at h
      simp only [pushEvent] at h
      simp only [flushHead, hd, List.headD]
      match hr : st.rlpxFlushScript with
      | [] =>
          rw [hr] at h
          simp only [] at h
          cases h
          simp [pushEvent, hr]
      | .error e :: rest₂ =>
          rw [hr] at h
          simp only [pushEvent] at h
          simp [hr] at h
      | .ok .notReady :: rest₂ =>
          rw [hr] at h
          simp only [pushEvent, hr] at h
          cases h
          simp [pushEvent, hr]
      | .ok (.ready u₂) :: rest₂ =>
          rw [hr] at h
          simp only [pushEvent, hr] at h
          cases h
          simp [pushEvent, hr]

theorem claim_C7_witness :
    ∃ st' res, devPoll 1 sampleSt = some (.ok (st', res)) ∧
      ∃ d q p,
        st'.trace = sampleSt.trace ++ d ++ [Event.rlpxPolled] ++ q ++ p ∧
        d ≠ [] ∧ (∀ e ∈ d, isDrainEvent e) ∧
        q ≠ [] ∧ (∀ e ∈ q, isReplenishEvent e) ∧
        p ≠ [] ∧ (∀ e ∈ p, isPingEvent e) ∧
        st'.rlpxPeers = sampleSt.rlpxPeers ++
          (readyNodes sampleSt.dptPollScript).map
            (fun n => (n.address, n.tcp_port, n.id)) := by
  refine ⟨_, _, rfl, claim_C7_pollOrder 1 sampleSt _ _ rfl⟩

theorem claim_C8_witness :
    scenarioInv sampleInvSt ∧
    ∃ st', iterateScenario 3 sampleInvSt = some st' ∧
      countRequests st'.dptSent = countRequests sampleInvSt.dptSent + 3 ∧
      st'.optDeadline =
        sampleInvSt.optDeadline + 3 * sampleInvSt.optInterval := by
  have hinv : scenarioInv sampleInvSt :=
    ⟨rfl, rfl, rfl, rfl, by decide, by decide, by decide⟩
  exact ⟨hinv, claim_C8_replenishment.2.2.2 3 sampleInvSt hinv⟩

theorem claim_C9_witness :
    ∃ st' r, devPollComplete sampleFlushSt = .ok (st', r) ∧
      ((r = .ready () ↔
        flushHead sampleFlushSt.dptFlushScript = .ok (.ready ()) ∧
        flushHead sampleFlushSt.rlpxFlushScript = .ok (.ready ())) ∧
      (flushHead sampleFlushSt.dptFlushScript = .ok (.ready ()) →
        st'.trace = sampleFlushSt.trace ++
          [Event.dptFlushPolled, Event.rlpxFlushPolled]) ∧
      (flushHead sampleFlushSt.dptFlushScript = .ok .notReady →
        st'.trace = sampleFlushSt.trace ++ [Event.dptFlushPolled])) := by
  refine ⟨_, _, rfl, claim_C9_flushOrder sampleFlushSt _ _ rfl⟩

end DevP2P
